import Mathlib

/-!
Shallow embedding of the miniature cooperative task-execution core of
`idiomatic-rust-in-simple-steps` (the async-rust chapters): the `Future`/poll
protocol, the leaf worker tasks (`FakeWorker`, `ThreadTimer`,
`ThreadedFakeWorker`), the thread-backed waker (`ThreadWaker` plus the
park/unpark token it relies on), the blocking driver loop (`block_thread_on`),
and the `Join` combinator with its `CollapsableFuture` wrapper.

Modelling conventions:
- `Poll α` mirrors `std::task::Poll`.
- A waker / notification handle (`Context`) is identified by a `Nat`.
- Rust's in-place mutation through `Pin<&mut Self>` is modelled by state
  passing: a poll takes a state and returns the poll result together with the
  updated state.
- The background worker thread spawned by `ThreadTimer` / `ThreadedFakeWorker`
  runs concurrently with the polling thread.  Whether it has already set the
  shared completion flag (resp. finished, as seen by `JoinHandle::is_finished`)
  by the time the polling thread reads it is nondeterministic; each poll
  therefore takes a Boolean interleaving oracle `raced` saying whether the
  running worker completed before the read in that poll.  A worker can only
  exist once spawned, and completion is monotone (`||` with the stored flag).
- Panics (`panic!`, `Option::unwrap` on `None`) are modelled by explicit
  `RustValue.panic` / `ExtractResult.panicked` values, never by stubbing.
-/

namespace AsyncRust

/-- `std::task::Poll`. -/
inductive Poll (α : Type) where
  | Ready (output : α)
  | Pending
deriving DecidableEq, Repr

/-! ### `FakeWorker` (language-basics/async-rust/src/fake_worker.rs)

`work_remaining` is a `u8` in the source; it is only ever decremented when
nonzero, so `Nat` models it exactly on all representable values. -/

structure FakeWorker where
  work_remaining : Nat
deriving DecidableEq, Repr

/-- `impl Future for FakeWorker::poll`: ready with "All done!" when no work
remains, otherwise decrement the counter and report `Pending`.  The context
argument is ignored by the source (`_cx`). -/
def FakeWorker.poll (f : FakeWorker) (_cx : Nat) : Poll String × FakeWorker :=
  match f.work_remaining with
  | 0 => (.Ready "All done!", f)
  | n + 1 => (.Pending, ⟨n⟩)

/-- Results of a sequence of polls of a `FakeWorker`, one per supplied context. -/
def FakeWorker.pollResults (f : FakeWorker) : List Nat → List (Poll String)
  | [] => []
  | cx :: rest => (f.poll cx).1 :: (f.poll cx).2.pollResults rest

/-! ### `ThreadTimer` (language-basics/async-rust/src/thread_timer.rs) -/

/-- Observable shared-state accesses performed by one call to
`ThreadTimer::poll`, in program order. -/
inductive TimerEvent where
  | storeWaker (w : Nat)
  | spawnWorker
  | readFlag (value : Bool)
deriving DecidableEq, Repr

/-- `ThreadTimer`: `join_handle` is `Option<JoinHandle<()>>` in the source and
modelled by whether the worker has been spawned; `waker` and `is_complete` are
the contents of the two `Arc<Mutex<_>>` cells shared with the worker. -/
structure ThreadTimer where
  duration : Nat
  join_handle : Bool
  waker : Nat
  is_complete : Bool
deriving DecidableEq, Repr

/-- `ThreadTimer::new(duration)`. -/
def ThreadTimer.new (duration : Nat) : ThreadTimer :=
  { duration := duration, join_handle := false, waker := 0, is_complete := false }

structure TimerPollResult where
  result : Poll Unit
  state : ThreadTimer
  events : List TimerEvent
deriving DecidableEq, Repr

/-- `impl Future for ThreadTimer::poll`: store the supplied waker into the
shared slot, spawn the worker if not yet spawned, then read the shared
completion flag.  `raced` is the interleaving oracle: whether the (now
running) worker set the flag before this poll's flag read. -/
def ThreadTimer.poll (t : ThreadTimer) (w : Nat) (raced : Bool) : TimerPollResult :=
  let t1 : ThreadTimer := { t with waker := w }
  if t1.join_handle then
    let flag := t1.is_complete || raced
    { result := if flag then .Ready () else .Pending
      state := { t1 with is_complete := flag }
      events := [.storeWaker w, .readFlag flag] }
  else
    let t2 : ThreadTimer := { t1 with join_handle := true }
    let flag := t2.is_complete || raced
    { result := if flag then .Ready () else .Pending
      state := { t2 with is_complete := flag }
      events := [.storeWaker w, .spawnWorker, .readFlag flag] }

/-- Results of a sequence of polls of a `ThreadTimer`; each element of the
input list supplies the waker and the interleaving oracle for one poll. -/
def ThreadTimer.pollResults (t : ThreadTimer) : List (Nat × Bool) → List (Poll Unit)
  | [] => []
  | (w, r) :: rest =>
      (t.poll w r).result :: (t.poll w r).state.pollResults rest

/-! ### `ThreadedFakeWorker` (src/language-basics/async-rust/src/fake_work.rs)

This variant has no separate completion flag: after spawning, polls ask the
stored `JoinHandle` whether the worker thread `is_finished()`. -/

inductive WorkerEvent where
  | storeWaker (w : Nat)
  | spawnWorker
  | checkFinished (value : Bool)
deriving DecidableEq, Repr

structure ThreadedFakeWorker where
  duration : Nat
  spawned : Bool
  finished : Bool
  waker : Nat
deriving DecidableEq, Repr

/-- `ThreadedFakeWorker::new(duration)`. -/
def ThreadedFakeWorker.new (duration : Nat) : ThreadedFakeWorker :=
  { duration := duration, spawned := false, finished := false, waker := 0 }

structure WorkerPollResult where
  result : Poll Unit
  state : ThreadedFakeWorker
  events : List WorkerEvent
deriving DecidableEq, Repr

/-- `impl Future for ThreadedFakeWorker::poll`: store the supplied waker, then
either spawn the worker and return `Pending` immediately (no-handle branch) or
check `JoinHandle::is_finished` (`raced` again says whether the running worker
finished before this poll's check). -/
def ThreadedFakeWorker.poll (f : ThreadedFakeWorker) (w : Nat) (raced : Bool) :
    WorkerPollResult :=
  let f1 : ThreadedFakeWorker := { f with waker := w }
  if f1.spawned then
    let fin := f1.finished || raced
    { result := if fin then .Ready () else .Pending
      state := { f1 with finished := fin }
      events := [.storeWaker w, .checkFinished fin] }
  else
    { result := .Pending
      state := { f1 with spawned := true }
      events := [.storeWaker w, .spawnWorker] }

/-- Results of a sequence of polls of a `ThreadedFakeWorker`. -/
def ThreadedFakeWorker.pollResults (f : ThreadedFakeWorker) :
    List (Nat × Bool) → List (Poll Unit)
  | [] => []
  | (w, r) :: rest =>
      (f.poll w r).result :: (f.poll w r).state.pollResults rest

/-! ### `CollapsableFuture` (src/language-basics/async-rust/src/join/collapsable_future.rs)

The wrapper is generic over the wrapped future.  An embedded future over a
state type `σ` with output `α` is a pure poll function
`σ → Nat → Poll α × σ` (context id in, result and updated state out). -/

/-- The value a Rust expression produces, or the panic that aborts it. -/
inductive RustValue (α : Type) where
  | value (v : α)
  | panic (msg : String)
deriving DecidableEq, Repr

/-- `InnerCollapsableFuture<F>`: the wrapper's three-state machine. -/
inductive InnerCollapsableFuture (σ α : Type) where
  | Pending (fut : σ)
  | Ready (output : α)
  | Spent
deriving DecidableEq, Repr

/-- Outcome of `InnerCollapsableFuture::extract(self)`: an `Option<F::Output>`,
or the panic raised on a `Spent` value. -/
inductive ExtractResult (α : Type) where
  | ok (out : Option α)
  | panicked (msg : String)
deriving DecidableEq, Repr

/-- `InnerCollapsableFuture::extract`: `Pending` gives `None`, `Ready` gives
`Some(output)`, `Spent` panics. -/
def InnerCollapsableFuture.extract {σ α : Type} :
    InnerCollapsableFuture σ α → ExtractResult α
  | .Pending _ => .ok none
  | .Ready output => .ok (some output)
  | .Spent => .panicked "Attempted to extract a spent future"

/-- `Option::unwrap` applied to the result of an `extract` call: panics on
`None` or propagates the extract panic. -/
def ExtractResult.unwrap {α : Type} : ExtractResult α → RustValue α
  | .ok (some a) => .value a
  | .ok none => .panic "called Option::unwrap on a None value"
  | .panicked msg => .panic msg

/-- The error type `InnerFutureSpentError`. -/
inductive InnerFutureSpentError where
  | mk
deriving DecidableEq, Repr

/-- `CollapsableFuture<F>`: a `RefCell` around the three-state machine. -/
structure CollapsableFuture (σ α : Type) where
  state : InnerCollapsableFuture σ α
deriving DecidableEq, Repr

/-- `CollapsableFuture::extract`: replace the cell's contents with `Spent` and
extract from the old value (dropping the inner future if it was `Pending`). -/
def CollapsableFuture.extract {σ α : Type} (c : CollapsableFuture σ α) :
    ExtractResult α × CollapsableFuture σ α :=
  (c.state.extract, ⟨.Spent⟩)

/-- `impl Future for CollapsableFuture::poll`: in `Pending` delegate to the
inner future and cache its output on `Ready`; in `Ready` report `Ok(())`
again; in `Spent` report `Err(InnerFutureSpentError)`. -/
def CollapsableFuture.poll {σ α : Type} (p : σ → Nat → Poll α × σ)
    (c : CollapsableFuture σ α) (cx : Nat) :
    Poll (Except InnerFutureSpentError Unit) × CollapsableFuture σ α :=
  match c.state with
  | .Pending fut =>
      match (p fut cx).1 with
      | .Ready output => (.Ready (.ok ()), ⟨.Ready output⟩)
      | .Pending => (.Pending, ⟨.Pending (p fut cx).2⟩)
  | .Ready output => (.Ready (.ok ()), ⟨.Ready output⟩)
  | .Spent => (.Ready (.error .mk), ⟨.Spent⟩)

/-- Results of a sequence of polls of a `CollapsableFuture`. -/
def CollapsableFuture.pollResults {σ α : Type} (p : σ → Nat → Poll α × σ)
    (c : CollapsableFuture σ α) :
    List Nat → List (Poll (Except InnerFutureSpentError Unit))
  | [] => []
  | cx :: rest =>
      (CollapsableFuture.poll p c cx).1 ::
        CollapsableFuture.pollResults p (CollapsableFuture.poll p c cx).2 rest

/-! ### `Join` (src/language-basics/async-rust/src/join.rs) -/

/-- `Join<F1, F2>`: two pinned, boxed collapsable wrappers. -/
structure Join (σ1 α1 σ2 α2 : Type) where
  fst : CollapsableFuture σ1 α1
  snd : CollapsableFuture σ2 α2
deriving DecidableEq, Repr

/-- `Join::new(future1, future2)`. -/
def Join.new {σ1 α1 σ2 α2 : Type} (future1 : σ1) (future2 : σ2) :
    Join σ1 α1 σ2 α2 :=
  ⟨⟨.Pending future1⟩, ⟨.Pending future2⟩⟩

/-- `Except.isErr` for the spent-error results (`Result::is_err`). -/
def isErr {ε α : Type} : Except ε α → Bool
  | .error _ => true
  | .ok _ => false

/-- `impl Future for Join::poll`: poll both wrapped children unconditionally,
return `Pending` unless both are `Ready`; if both are `Ready`, report
`Err(InnerFutureSpentError)` if either child is spent, otherwise extract the
two cached outputs (unwrapping, which would panic on `None`) and return the
pair. -/
def Join.poll {σ1 α1 σ2 α2 : Type}
    (p1 : σ1 → Nat → Poll α1 × σ1) (p2 : σ2 → Nat → Poll α2 × σ2)
    (j : Join σ1 α1 σ2 α2) (cx : Nat) :
    RustValue (Poll (Except InnerFutureSpentError (α1 × α2)) × Join σ1 α1 σ2 α2) :=
  let pr1 := CollapsableFuture.poll p1 j.fst cx
  let pr2 := CollapsableFuture.poll p2 j.snd cx
  match pr1.1, pr2.1 with
  | .Ready r1, .Ready r2 =>
      if isErr r1 || isErr r2 then
        .value (.Ready (.error .mk), ⟨pr1.2, pr2.2⟩)
      else
        match (pr1.2.extract).1.unwrap, (pr2.2.extract).1.unwrap with
        | .value a, .value b =>
            .value (.Ready (.ok (a, b)), ⟨(pr1.2.extract).2, (pr2.2.extract).2⟩)
        | .panic msg, _ => .panic msg
        | .value _, .panic msg => .panic msg
  | _, _ => .value (.Pending, ⟨pr1.2, pr2.2⟩)

/-! ### The blocking driver loop (thread_executor.rs)

`block_thread_on` creates one waker for the calling thread and polls in a
loop, parking between polls.  Parking does not change poll results, so the
observable behaviour is the poll loop itself; the Rust loop is unbounded, so
it is modelled with explicit fuel (a bound on the number of polls attempted). -/

/-- The state of the future after `n` polls by the driver (which reuses the
same context `w` for every poll). -/
def pollIter {σ α : Type} (p : σ → Nat → Poll α × σ) (w : Nat) (s : σ) :
    Nat → σ
  | 0 => s
  | n + 1 => (p (pollIter p w s n) w).2

/-- `block_thread_on`, fuelled: poll; on `Ready` break with the output, on
`Pending` park (a no-op for the poll sequence) and loop. -/
def block_thread_on {σ α : Type} (p : σ → Nat → Poll α × σ) (w : Nat) :
    Nat → σ → Option α
  | 0, _ => none
  | fuel + 1, s =>
      match p s w with
      | (.Ready output, _) => some output
      | (.Pending, s2) => block_thread_on p w fuel s2

/-! ### `ThreadWaker` and the park/unpark token (thread_waker.rs)

`ThreadWaker` captures a thread identity and `wake` calls `unpark` on it.
The park/unpark token semantics lives in `std::thread`, outside this
repository; `ParkState`, `park` and `unpark` are modelled from the spec:
"invoking it resumes that thread if it is parked (suspended awaiting
notification), otherwise the resume is remembered and the next suspend call
returns immediately (a stored wake token)". -/

/-- Modelled from the spec: the park/unpark state of one thread — whether a
wake token is stored, and whether the thread is currently parked. -/
structure ParkState where
  token : Bool
  parked : Bool
deriving DecidableEq, Repr

/-- Modelled from the spec: `Thread::unpark` — resume the thread if parked,
otherwise store the wake token. -/
def unpark (s : ParkState) : ParkState :=
  if s.parked then { s with parked := false } else { s with token := true }

/-- Modelled from the spec: `std::thread::park` — if a wake token is stored,
consume it and return immediately (`true`); otherwise block, i.e. become
parked (`false` = did not return immediately). -/
def park (s : ParkState) : Bool × ParkState :=
  if s.token then (true, { s with token := false })
  else (false, { s with parked := true })

/-- `ThreadWaker`: the captured thread identity. -/
structure ThreadWaker where
  thread : Nat
deriving DecidableEq, Repr

/-- `impl Wake for ThreadWaker::wake`: unpark the captured thread, leaving
every other thread's park state unchanged. -/
def ThreadWaker.wake (tw : ThreadWaker) (threads : Nat → ParkState) :
    Nat → ParkState :=
  fun i => if i = tw.thread then unpark (threads i) else threads i

/-! ## Helper lemmas -/

/-- Branch equation: polling a `Pending` wrapper whose inner future stays
pending keeps delegating and stores the advanced inner future. -/
theorem collapsable_poll_pending_eq {σ α : Type} (p : σ → Nat → Poll α × σ)
    (fut : σ) (cx : Nat) (h : (p fut cx).1 = .Pending) :
    CollapsableFuture.poll p ⟨.Pending fut⟩ cx =
      (.Pending, ⟨.Pending (p fut cx).2⟩) := by
  simp [CollapsableFuture.poll, h]

/-- Branch equation: polling a `Pending` wrapper whose inner future completes
caches the output and reports `Ok(())`. -/
theorem collapsable_poll_readyInner_eq {σ α : Type} (p : σ → Nat → Poll α × σ)
    (fut : σ) (cx : Nat) (o : α) (h : (p fut cx).1 = .Ready o) :
    CollapsableFuture.poll p ⟨.Pending fut⟩ cx = (.Ready (.ok ()), ⟨.Ready o⟩) := by
  simp [CollapsableFuture.poll, h]

/-- Branch equation: polling a `Ready` wrapper is idempotent. -/
theorem collapsable_poll_ready_eq {σ α : Type} (p : σ → Nat → Poll α × σ)
    (o : α) (cx : Nat) :
    CollapsableFuture.poll p ⟨.Ready o⟩ cx = (.Ready (.ok ()), ⟨.Ready o⟩) := rfl

/-- Branch equation: polling a `Spent` wrapper reports the spent error and
stays `Spent`. -/
theorem collapsable_poll_spent_eq {σ α : Type} (p : σ → Nat → Poll α × σ)
    (cx : Nat) :
    CollapsableFuture.poll p (⟨.Spent⟩ : CollapsableFuture σ α) cx =
      (.Ready (.error .mk), ⟨.Spent⟩) := rfl

/-- Analysis of a wrapper poll that returned `Ready`: either it reported
`Ok(())` and the post state caches an output, or the wrapper was already
`Spent` and it reported the spent error. -/
theorem collapsable_poll_ready_cases {σ α : Type} (p : σ → Nat → Poll α × σ)
    (c c' : CollapsableFuture σ α) (e : Except InnerFutureSpentError Unit)
    (cx : Nat) (h : CollapsableFuture.poll p c cx = (.Ready e, c')) :
    (e = .ok () ∧ ∃ a, c' = ⟨.Ready a⟩) ∨
      (e = .error .mk ∧ c' = ⟨.Spent⟩ ∧ c = ⟨.Spent⟩) := by
  obtain ⟨st⟩ := c
  cases st with
  | Pending fut =>
      cases hp : (p fut cx).1 with
      | Ready out =>
          rw [collapsable_poll_readyInner_eq p fut cx out hp] at h
          obtain ⟨h1, h2⟩ := Prod.mk.injEq .. ▸ h
          exact Or.inl ⟨(Poll.Ready.injEq .. ▸ h1).symm, out, h2.symm⟩
      | Pending =>
          rw [collapsable_poll_pending_eq p fut cx hp] at h
          exact absurd (congrArg Prod.fst h) (by simp)
  | Ready o =>
      rw [collapsable_poll_ready_eq] at h
      obtain ⟨h1, h2⟩ := Prod.mk.injEq .. ▸ h
      exact Or.inl ⟨(Poll.Ready.injEq .. ▸ h1).symm, o, h2.symm⟩
  | Spent =>
      rw [collapsable_poll_spent_eq] at h
      obtain ⟨h1, h2⟩ := Prod.mk.injEq .. ▸ h
      exact Or.inr ⟨(Poll.Ready.injEq .. ▸ h1).symm, h2.symm, rfl⟩

/-- A wrapper that has reported `Ready` is a fixed point: every later poll
returns the same result and leaves the state unchanged. -/
theorem collapsable_poll_ready_fixed {σ α : Type} (p : σ → Nat → Poll α × σ)
    (c c' : CollapsableFuture σ α) (e : Except InnerFutureSpentError Unit)
    (cx : Nat) (h : CollapsableFuture.poll p c cx = (.Ready e, c'))
    (cx2 : Nat) : CollapsableFuture.poll p c' cx2 = (.Ready e, c') := by
  rcases collapsable_poll_ready_cases p c c' e cx h with ⟨he, a, hc⟩ | ⟨he, hc, _⟩
  · rw [hc, he, collapsable_poll_ready_eq]
  · rw [hc, he, collapsable_poll_spent_eq]

/-- The event trace of one `ThreadTimer::poll`, as a function of the state. -/
theorem timer_events_eq (t : ThreadTimer) (w : Nat) (raced : Bool) :
    (t.poll w raced).events =
      if t.join_handle then
        [.storeWaker w, .readFlag (t.is_complete || raced)]
      else
        [.storeWaker w, .spawnWorker, .readFlag (t.is_complete || raced)] := by
  rcases ht : t.join_handle <;> simp [ThreadTimer.poll, ht]

/-- The event trace of one `ThreadedFakeWorker::poll`, as a function of the
state. -/
theorem worker_events_eq (f : ThreadedFakeWorker) (w : Nat) (raced : Bool) :
    (f.poll w raced).events =
      if f.spawned then
        [.storeWaker w, .checkFinished (f.finished || raced)]
      else
        [.storeWaker w, .spawnWorker] := by
  rcases hf : f.spawned <;> simp [ThreadedFakeWorker.poll, hf]

/-- Branch equation: `Join::poll` with at least one `Pending` child returns
`Pending`, with both children advanced by their own polls. -/
theorem join_poll_pending_eq {σ1 α1 σ2 α2 : Type}
    (p1 : σ1 → Nat → Poll α1 × σ1) (p2 : σ2 → Nat → Poll α2 × σ2)
    (j : Join σ1 α1 σ2 α2) (cx : Nat)
    (h : (CollapsableFuture.poll p1 j.fst cx).1 = .Pending ∨
      (CollapsableFuture.poll p2 j.snd cx).1 = .Pending) :
    Join.poll p1 p2 j cx =
      .value (.Pending,
        ⟨(CollapsableFuture.poll p1 j.fst cx).2,
          (CollapsableFuture.poll p2 j.snd cx).2⟩) := by
  rcases h1 : (CollapsableFuture.poll p1 j.fst cx).1 with r1 | _ <;>
    rcases h2 : (CollapsableFuture.poll p2 j.snd cx).1 with r2 | _ <;>
    simp_all [Join.poll]

/-- Branch equation: both children `Ready` but one of them spent. -/
theorem join_poll_err_eq {σ1 α1 σ2 α2 : Type}
    (p1 : σ1 → Nat → Poll α1 × σ1) (p2 : σ2 → Nat → Poll α2 × σ2)
    (j : Join σ1 α1 σ2 α2) (cx : Nat)
    (r1 r2 : Except InnerFutureSpentError Unit)
    (h1 : (CollapsableFuture.poll p1 j.fst cx).1 = .Ready r1)
    (h2 : (CollapsableFuture.poll p2 j.snd cx).1 = .Ready r2)
    (he : (isErr r1 || isErr r2) = true) :
    Join.poll p1 p2 j cx =
      .value (.Ready (.error .mk),
        ⟨(CollapsableFuture.poll p1 j.fst cx).2,
          (CollapsableFuture.poll p2 j.snd cx).2⟩) := by
  simp [Join.poll, h1, h2, he]

/-- Branch equation: both children `Ready` and healthy — the join extracts
both cached outputs, spends both wrappers, and returns the pair. -/
theorem join_poll_ok_eq {σ1 α1 σ2 α2 : Type}
    (p1 : σ1 → Nat → Poll α1 × σ1) (p2 : σ2 → Nat → Poll α2 × σ2)
    (j : Join σ1 α1 σ2 α2) (cx : Nat) (a : α1) (b : α2)
    (h1 : (CollapsableFuture.poll p1 j.fst cx).1 = .Ready (.ok ()))
    (h2 : (CollapsableFuture.poll p2 j.snd cx).1 = .Ready (.ok ()))
    (ha : (CollapsableFuture.poll p1 j.fst cx).2 = ⟨.Ready a⟩)
    (hb : (CollapsableFuture.poll p2 j.snd cx).2 = ⟨.Ready b⟩) :
    Join.poll p1 p2 j cx =
      .value (.Ready (.ok (a, b)), ⟨⟨.Spent⟩, ⟨.Spent⟩⟩) := by
  simp [Join.poll, h1, h2, ha, hb, isErr, CollapsableFuture.extract,
    InnerCollapsableFuture.extract, ExtractResult.unwrap]

/-- A join that has reported `Ready` leaves both children settled; every
later poll reports `Ready` again, with the spent-error payload, and leaves
the state unchanged. -/
theorem join_poll_ready_fixed {σ1 α1 σ2 α2 : Type}
    (p1 : σ1 → Nat → Poll α1 × σ1) (p2 : σ2 → Nat → Poll α2 × σ2)
    (j j2 : Join σ1 α1 σ2 α2) (cx : Nat)
    (v : Except InnerFutureSpentError (α1 × α2))
    (h : Join.poll p1 p2 j cx = .value (.Ready v, j2)) (cx2 : Nat) :
    Join.poll p1 p2 j2 cx2 = .value (.Ready (.error .mk), j2) := by
  rcases h1 : (CollapsableFuture.poll p1 j.fst cx).1 with r1 | _
  case Pending =>
    rw [join_poll_pending_eq p1 p2 j cx (Or.inl h1)] at h
    exact absurd h (by simp)
  rcases h2 : (CollapsableFuture.poll p2 j.snd cx).1 with r2 | _
  case Pending =>
    rw [join_poll_pending_eq p1 p2 j cx (Or.inr h2)] at h
    exact absurd h (by simp)
  have hpair1 : CollapsableFuture.poll p1 j.fst cx =
      (.Ready r1, (CollapsableFuture.poll p1 j.fst cx).2) := by
    rw [← h1]
  have hpair2 : CollapsableFuture.poll p2 j.snd cx =
      (.Ready r2, (CollapsableFuture.poll p2 j.snd cx).2) := by
    rw [← h2]
  rcases he : (isErr r1 || isErr r2) with _ | _
  · -- both children healthy: the join extracted and spent both wrappers
    rcases collapsable_poll_ready_cases p1 j.fst _ r1 cx hpair1 with
      ⟨he1, a, hc1⟩ | ⟨he1, _, _⟩
    · rcases collapsable_poll_ready_cases p2 j.snd _ r2 cx hpair2 with
        ⟨he2, b, hc2⟩ | ⟨he2, _, _⟩
      · rw [join_poll_ok_eq p1 p2 j cx a b (he1 ▸ h1) (he2 ▸ h2) hc1 hc2] at h
        have hj2 : j2 = ⟨⟨.Spent⟩, ⟨.Spent⟩⟩ := by
          have := (RustValue.value.injEq .. ▸ h)
          exact (Prod.mk.injEq .. ▸ this).2.symm
        rw [hj2]
        exact join_poll_err_eq p1 p2 ⟨⟨.Spent⟩, ⟨.Spent⟩⟩ cx2 (.error .mk)
          (.error .mk) rfl rfl rfl
      · rw [he2] at he
        simp [isErr] at he
    · rw [he1] at he
      simp [isErr] at he
  · -- one child spent: the join reported the error without extracting
    rw [join_poll_err_eq p1 p2 j cx r1 r2 h1 h2 he] at h
    have hj2 : j2 = ⟨(CollapsableFuture.poll p1 j.fst cx).2,
        (CollapsableFuture.poll p2 j.snd cx).2⟩ := by
      have := (RustValue.value.injEq .. ▸ h)
      exact (Prod.mk.injEq .. ▸ this).2.symm
    have hf1 : CollapsableFuture.poll p1 j2.fst cx2 = (.Ready r1, j2.fst) := by
      rw [hj2]
      exact collapsable_poll_ready_fixed p1 j.fst _ r1 cx hpair1 cx2
    have hf2 : CollapsableFuture.poll p2 j2.snd cx2 = (.Ready r2, j2.snd) := by
      rw [hj2]
      exact collapsable_poll_ready_fixed p2 j.snd _ r2 cx hpair2 cx2
    have := join_poll_err_eq p1 p2 j2 cx2 r1 r2
      (by rw [hf1]) (by rw [hf2]) he
    rw [this, hf1, hf2]

/-- A `FakeWorker` with no work left answers `Ready "All done!"` on every
poll of any sequence. -/
theorem fake_worker_done_pollResults (fw : FakeWorker)
    (h : fw.work_remaining = 0) (cxs : List Nat) :
    ∀ q ∈ fw.pollResults cxs, q = .Ready "All done!" := by
  induction cxs with
  | nil => simp [FakeWorker.pollResults]
  | cons cx rest ih =>
      intro q hq
      obtain ⟨n⟩ := fw
      cases h
      rw [FakeWorker.pollResults] at hq
      rcases List.mem_cons.mp hq with hh | hh
      · exact hh
      · exact ih q hh

/-- A `ThreadTimer::poll` that answered `Ready` has observed (and stored) the
completion flag as set. -/
theorem timer_ready_complete (t : ThreadTimer) (w : Nat) (raced : Bool)
    (h : (t.poll w raced).result = .Ready ()) :
    (t.poll w raced).state.is_complete = true := by
  rcases ht : t.join_handle <;> rcases hc : (t.is_complete || raced) <;>
    simp_all [ThreadTimer.poll, ht, hc]

/-- Once a `ThreadTimer`'s completion flag is set it stays set, and every
later poll answers `Ready` (the flag is monotone: polls only `||` onto it). -/
theorem timer_complete_pollResults (t : ThreadTimer) (h : t.is_complete = true)
    (ins : List (Nat × Bool)) : ∀ q ∈ t.pollResults ins, q = .Ready () := by
  induction ins generalizing t with
  | nil => simp [ThreadTimer.pollResults]
  | cons wr rest ih =>
      intro q hq
      obtain ⟨w, r⟩ := wr
      have h1 : (t.poll w r).result = .Ready () := by
        rcases ht : t.join_handle <;> simp [ThreadTimer.poll, ht, h]
      have h2 : (t.poll w r).state.is_complete = true := by
        rcases ht : t.join_handle <;> simp [ThreadTimer.poll, ht, h]
      rw [ThreadTimer.pollResults] at hq
      rcases List.mem_cons.mp hq with hh | hh
      · rw [hh, h1]
      · exact ih _ h2 _ hh

/-- A `ThreadedFakeWorker::poll` that answered `Ready` has spawned its worker
and observed it finished. -/
theorem worker_ready_finished (f : ThreadedFakeWorker) (w : Nat) (raced : Bool)
    (h : (f.poll w raced).result = .Ready ()) :
    (f.poll w raced).state.spawned = true ∧
      (f.poll w raced).state.finished = true := by
  rcases hf : f.spawned <;> rcases hc : (f.finished || raced) <;>
    simp_all [ThreadedFakeWorker.poll, hf, hc]

/-- A spawned, finished `ThreadedFakeWorker` answers `Ready` on every poll of
any sequence. -/
theorem worker_complete_pollResults (f : ThreadedFakeWorker)
    (h1 : f.spawned = true) (h2 : f.finished = true) (ins : List (Nat × Bool)) :
    ∀ q ∈ f.pollResults ins, q = .Ready () := by
  induction ins generalizing f with
  | nil => simp [ThreadedFakeWorker.pollResults]
  | cons wr rest ih =>
      intro q hq
      obtain ⟨w, r⟩ := wr
      have ha : (f.poll w r).result = .Ready () := by
        simp [ThreadedFakeWorker.poll, h1, h2]
      have hb : (f.poll w r).state.spawned = true ∧
          (f.poll w r).state.finished = true := by
        simp [ThreadedFakeWorker.poll, h1, h2]
      rw [ThreadedFakeWorker.pollResults] at hq
      rcases List.mem_cons.mp hq with hh | hh
      · rw [hh, ha]
      · exact ih _ hb.1 hb.2 _ hh

/-- After a wrapper poll answered `Ready e`, every poll of any later sequence
answers `Ready e` again. -/
theorem collapsable_ready_pollResults {σ α : Type} (p : σ → Nat → Poll α × σ)
    (c c2 : CollapsableFuture σ α) (e : Except InnerFutureSpentError Unit)
    (cx : Nat) (h : CollapsableFuture.poll p c cx = (.Ready e, c2))
    (cxs : List Nat) :
    ∀ q ∈ CollapsableFuture.pollResults p c2 cxs, q = .Ready e := by
  induction cxs with
  | nil => simp [CollapsableFuture.pollResults]
  | cons cx2 rest ih =>
      intro q hq
      rw [CollapsableFuture.pollResults,
        collapsable_poll_ready_fixed p c c2 e cx h cx2] at hq
      rcases List.mem_cons.mp hq with hh | hh
      · exact hh
      · exact ih q hh

/-- Shifting the poll-iteration start by one step. -/
theorem pollIter_shift {σ α : Type} (p : σ → Nat → Poll α × σ) (w : Nat)
    (s : σ) (k : Nat) :
    pollIter p w s (k + 1) = pollIter p w (p s w).2 k := by
  induction k with
  | zero => rfl
  | succ n ih =>
      show (p (pollIter p w s (n + 1)) w).2 = (p (pollIter p w (p s w).2 n) w).2
      rw [ih]

/-- If the driver's poll sequence first reaches `Ready o` at step `n`, then
with any fuel above `n` the driver loop returns `some o`. -/
theorem block_thread_on_reaches {σ α : Type} (p : σ → Nat → Poll α × σ)
    (w : Nat) : ∀ (n : Nat) (s : σ) (o : α),
    (∀ k, k < n → (p (pollIter p w s k) w).1 = .Pending) →
    (p (pollIter p w s n) w).1 = .Ready o →
    ∀ m, n < m → block_thread_on p w m s = some o := by
  intro n
  induction n with
  | zero =>
      intro s o _ hr m hm
      obtain ⟨m2, rfl⟩ : ∃ m2, m = m2 + 1 := ⟨m - 1, by omega⟩
      have h0 : (p s w).1 = .Ready o := hr
      rcases hps : p s w with ⟨r, s2⟩
      rw [hps] at h0
      simp only at h0
      subst h0
      simp [block_thread_on, hps]
  | succ n ih =>
      intro s o hp hr m hm
      obtain ⟨m2, rfl⟩ : ∃ m2, m = m2 + 1 := ⟨m - 1, by omega⟩
      have h0 : (p s w).1 = .Pending := hp 0 (Nat.succ_pos n)
      rcases hps : p s w with ⟨r, s2⟩
      rw [hps] at h0
      simp only at h0
      subst h0
      have hblock : block_thread_on p w (m2 + 1) s = block_thread_on p w m2 s2 := by
        simp [block_thread_on, hps]
      rw [hblock]
      refine ih s2 o ?_ ?_ m2 (by omega)
      · intro k hk
        have hh := hp (k + 1) (by omega)
        rw [pollIter_shift, hps] at hh
        exact hh
      · have hh := hr
        rw [pollIter_shift, hps] at hh
        exact hh

/-- If the driver loop returns `some o`, some poll within the fuel bound
actually answered `Ready o`. -/
theorem block_thread_on_sound {σ α : Type} (p : σ → Nat → Poll α × σ)
    (w : Nat) : ∀ (fuel : Nat) (s : σ) (o : α),
    block_thread_on p w fuel s = some o →
    ∃ k, k < fuel ∧ (p (pollIter p w s k) w).1 = .Ready o := by
  intro fuel
  induction fuel with
  | zero =>
      intro s o h
      exact absurd h (by simp [block_thread_on])
  | succ n ih =>
      intro s o h
      rcases hps : p s w with ⟨r, s2⟩
      cases r with
      | Ready out =>
          have hso : some out = some o := by
            rw [← h]
            simp [block_thread_on, hps]
          injection hso with hso
          refine ⟨0, Nat.succ_pos n, ?_⟩
          show (p s w).1 = .Ready o
          rw [hps, hso]
      | Pending =>
          have hb : block_thread_on p w n s2 = some o := by
            rw [← h]
            simp [block_thread_on, hps]
          obtain ⟨k, hk, hr⟩ := ih s2 o hb
          refine ⟨k + 1, by omega, ?_⟩
          rw [pollIter_shift, hps]
          exact hr

/-! ## Claims -/

/-- Claim C1, counterexample: on the wrapper `Ready 7`, the first `extract`
returns the cached output, but the second `extract` call does not yield the
`SpentError` value — it panics ("Attempted to extract a spent future") and
returns nothing at all, neither the cached output nor `None`. -/
theorem extract_second_call_panics_cx :
    ((⟨.Ready 7⟩ : CollapsableFuture Unit Nat).extract).1 = .ok (some 7) ∧
    ((((⟨.Ready 7⟩ : CollapsableFuture Unit Nat).extract).2).extract).1 =
      .panicked "Attempted to extract a spent future" ∧
    ((((⟨.Ready 7⟩ : CollapsableFuture Unit Nat).extract).2).extract).1 ≠
      .ok (some 7) ∧
    ((((⟨.Ready 7⟩ : CollapsableFuture Unit Nat).extract).2).extract).1 ≠
      .ok none := by
  refine ⟨rfl, rfl, ?_, ?_⟩ <;> decide

/-- Claim C1 (amended): after any first call to `extract` the wrapper is
`Spent`, and a second call to `extract` panics with "Attempted to extract a
spent future" — it never returns a cached, default, or otherwise usable
output (the `InnerFutureSpentError` value is produced by `poll` on a spent
wrapper, not by `extract`). -/
theorem extract_second_call_panics {σ α : Type} (c : CollapsableFuture σ α) :
    (c.extract).2 = ⟨.Spent⟩ ∧
    (((c.extract).2).extract).1 = .panicked "Attempted to extract a spent future" :=
  ⟨rfl, rfl⟩

/-- Claim C4: polling a collapsible wrapper follows its three-state machine —
in `Pending` it delegates to the inner task and on the inner task's `Ready`
transitions to `Ready`, reporting completion as `Ok(())` without exposing the
output; in `Ready` it reports `Ok(())` again; in `Spent` it reports
`Err(InnerFutureSpentError)` (it never blocks or panics). -/
theorem collapsable_poll_state_machine {σ α : Type}
    (p : σ → Nat → Poll α × σ) (cx : Nat) :
    (∀ fut : σ, (p fut cx).1 = .Pending →
      CollapsableFuture.poll p ⟨.Pending fut⟩ cx =
        (.Pending, ⟨.Pending (p fut cx).2⟩)) ∧
    (∀ (fut : σ) (o : α), (p fut cx).1 = .Ready o →
      CollapsableFuture.poll p ⟨.Pending fut⟩ cx = (.Ready (.ok ()), ⟨.Ready o⟩)) ∧
    (∀ o : α,
      CollapsableFuture.poll p ⟨.Ready o⟩ cx = (.Ready (.ok ()), ⟨.Ready o⟩)) ∧
    CollapsableFuture.poll p (⟨.Spent⟩ : CollapsableFuture σ α) cx =
      (.Ready (.error .mk), ⟨.Spent⟩) :=
  ⟨fun fut h => collapsable_poll_pending_eq p fut cx h,
   fun fut o h => collapsable_poll_readyInner_eq p fut cx o h,
   fun o => collapsable_poll_ready_eq p o cx,
   collapsable_poll_spent_eq p cx⟩

/-- Claim C4, witness: the three-state machine evaluated on concrete
`FakeWorker` wrappers. -/
theorem collapsable_poll_state_machine_witness :
    CollapsableFuture.poll FakeWorker.poll ⟨.Pending ⟨1⟩⟩ 0 =
      (.Pending, ⟨.Pending ⟨0⟩⟩) ∧
    CollapsableFuture.poll FakeWorker.poll ⟨.Pending ⟨0⟩⟩ 0 =
      (.Ready (.ok ()), ⟨.Ready "All done!"⟩) ∧
    CollapsableFuture.poll FakeWorker.poll ⟨.Ready "All done!"⟩ 0 =
      (.Ready (.ok ()), ⟨.Ready "All done!"⟩) ∧
    CollapsableFuture.poll FakeWorker.poll
      (⟨.Spent⟩ : CollapsableFuture FakeWorker String) 0 =
      (.Ready (.error .mk), ⟨.Spent⟩) := by
  obtain ⟨h1, h2, h3, h4⟩ := collapsable_poll_state_machine FakeWorker.poll 0
  exact ⟨h1 ⟨1⟩ rfl, h2 ⟨0⟩ "All done!" rfl, h3 "All done!", h4⟩

/-- Claim C5: every poll of a leaf timed/worker task (`ThreadTimer`,
`ThreadedFakeWorker`), whatever the supplied handle and the task's state,
leaves the stored notification handle equal to the supplied one, and the
handle store is the first shared-state access of the poll — in particular it
happens before the completion flag (resp. `is_finished`) is read. -/
theorem poll_stores_waker_before_check (t : ThreadTimer)
    (f : ThreadedFakeWorker) (w : Nat) (raced : Bool) :
    ((t.poll w raced).state.waker = w ∧
      (t.poll w raced).events.head? = some (.storeWaker w) ∧
      ∀ i v, (t.poll w raced).events.get? i = some (.readFlag v) → 0 < i) ∧
    ((f.poll w raced).state.waker = w ∧
      (f.poll w raced).events.head? = some (.storeWaker w) ∧
      ∀ i v, (f.poll w raced).events.get? i = some (.checkFinished v) → 0 < i) := by
  refine ⟨⟨?_, ?_, fun i v h => ?_⟩, ?_, ?_, fun i v h => ?_⟩
  · rcases ht : t.join_handle <;> simp [ThreadTimer.poll, ht]
  · rcases ht : t.join_handle <;> simp [ThreadTimer.poll, ht]
  · cases i with
    | zero =>
        rw [timer_events_eq] at h
        rcases ht : t.join_handle <;> simp [ht] at h
    | succ n => exact Nat.succ_pos n
  · rcases hf : f.spawned <;> simp [ThreadedFakeWorker.poll, hf]
  · rcases hf : f.spawned <;> simp [ThreadedFakeWorker.poll, hf]
  · cases i with
    | zero =>
        rw [worker_events_eq] at h
        rcases hf : f.spawned <;> simp [hf] at h
    | succ n => exact Nat.succ_pos n

/-- Claim C5, witness: concrete fresh tasks polled with handle 7. -/
theorem poll_stores_waker_before_check_witness :
    ((ThreadTimer.new 0).poll 7 false).state.waker = 7 ∧
    (0 : Nat) < 2 ∧
    ((ThreadedFakeWorker.new 0).poll 7 false).state.waker = 7 := by
  obtain ⟨⟨a1, _, a3⟩, b1, _, _⟩ :=
    poll_stores_waker_before_check (ThreadTimer.new 0)
      (ThreadedFakeWorker.new 0) 7 false
  exact ⟨a1, a3 2 false rfl, b1⟩

/-- Claim C6, counterexample: the poll that spawns `ThreadTimer`'s worker does
not return `Pending` immediately — it falls through to the completion-flag
check, and with a zero duration the freshly spawned worker can set the flag
before that read, making the spawning poll return `Ready`. -/
theorem timer_spawning_poll_ready_cx :
    ((ThreadTimer.new 0).poll 5 true).result = .Ready () ∧
    .spawnWorker ∈ ((ThreadTimer.new 0).poll 5 true).events := by
  exact ⟨rfl, by decide⟩

/-- Claim C6 (amended): a leaf task's poll spawns the background worker iff it
has not been spawned yet, and the spawned state never reverts;
`ThreadedFakeWorker`'s spawning poll returns `Pending` immediately, while
`ThreadTimer`'s spawning poll proceeds to the completion-flag check and
returns `Pending` unless the freshly spawned worker has already set the flag
by the time it is read. -/
theorem worker_spawned_at_most_once (t : ThreadTimer) (f : ThreadedFakeWorker)
    (w : Nat) (raced : Bool) :
    ((t.poll w raced).state.join_handle = true ∧
      (t.join_handle = true → .spawnWorker ∉ (t.poll w raced).events) ∧
      (t.join_handle = false → .spawnWorker ∈ (t.poll w raced).events) ∧
      (t.join_handle = false →
        ((t.poll w raced).result = .Pending ↔ (t.is_complete || raced) = false))) ∧
    ((f.poll w raced).state.spawned = true ∧
      (f.spawned = true → .spawnWorker ∉ (f.poll w raced).events) ∧
      (f.spawned = false →
        (f.poll w raced).events = [.storeWaker w, .spawnWorker] ∧
        (f.poll w raced).result = .Pending)) := by
  rcases ht : t.join_handle <;> rcases hf : f.spawned <;>
    rcases hc : (t.is_complete || raced) <;>
    simp [ThreadTimer.poll, ThreadedFakeWorker.poll, ht, hf, hc]

/-- Claim C6, witness: fresh concrete tasks; the spawning polls spawn, the
timer's spawning poll is `Pending` exactly because neither the stored flag nor
the race oracle reports completion. -/
theorem worker_spawned_at_most_once_witness :
    ((ThreadTimer.new 3).poll 1 false).state.join_handle = true ∧
    .spawnWorker ∈ ((ThreadTimer.new 3).poll 1 false).events ∧
    (((ThreadTimer.new 3).poll 1 false).result = .Pending ↔
      ((ThreadTimer.new 3).is_complete || false) = false) ∧
    ((ThreadedFakeWorker.new 3).poll 1 false).events =
      [.storeWaker 1, .spawnWorker] ∧
    ((ThreadedFakeWorker.new 3).poll 1 false).result = .Pending := by
  obtain ⟨⟨a1, _, a3, a4⟩, b1, _, b3⟩ :=
    worker_spawned_at_most_once (ThreadTimer.new 3) (ThreadedFakeWorker.new 3)
      1 false
  exact ⟨a1, a3 rfl, a4 rfl, (b3 rfl).1, (b3 rfl).2⟩

/-- Claim C7: a `FakeWorker` with `work_remaining == 0` is `Ready` with
"All done!" on its very first poll, leaving its state untouched (this leaf
never spawns anything); and `Join(FakeWorker 3, FakeWorker 0)` goes through
three `Pending` polls before completing with the pair of both outputs in
positional order. -/
theorem zero_work_and_join_scenario :
    FakeWorker.poll ⟨0⟩ 0 = (.Ready "All done!", ⟨0⟩) ∧
    Join.poll FakeWorker.poll FakeWorker.poll
        (Join.new ⟨3⟩ ⟨0⟩ : Join FakeWorker String FakeWorker String) 0 =
      .value (.Pending, ⟨⟨.Pending ⟨2⟩⟩, ⟨.Ready "All done!"⟩⟩) ∧
    Join.poll FakeWorker.poll FakeWorker.poll
        ⟨⟨.Pending ⟨2⟩⟩, ⟨.Ready "All done!"⟩⟩ 1 =
      .value (.Pending, ⟨⟨.Pending ⟨1⟩⟩, ⟨.Ready "All done!"⟩⟩) ∧
    Join.poll FakeWorker.poll FakeWorker.poll
        ⟨⟨.Pending ⟨1⟩⟩, ⟨.Ready "All done!"⟩⟩ 2 =
      .value (.Pending, ⟨⟨.Pending ⟨0⟩⟩, ⟨.Ready "All done!"⟩⟩) ∧
    Join.poll FakeWorker.poll FakeWorker.poll
        ⟨⟨.Pending ⟨0⟩⟩, ⟨.Ready "All done!"⟩⟩ 3 =
      .value (.Ready (.ok ("All done!", "All done!")), ⟨⟨.Spent⟩, ⟨.Spent⟩⟩) :=
  ⟨rfl, rfl, rfl, rfl, rfl⟩

/-- Claim C10: calling `extract` on a still-`Pending` wrapper returns `None`,
drops the inner task, and transitions the wrapper irreversibly to `Spent`;
every subsequent poll then reports `Err(InnerFutureSpentError)`, so the
wrapped computation can never complete afterward. -/
theorem extract_pending_drops_then_spent {σ α : Type} (fut : σ)
    (p : σ → Nat → Poll α × σ) (cxs : List Nat) :
    (CollapsableFuture.extract ⟨.Pending fut⟩).1 = (.ok none : ExtractResult α) ∧
    (CollapsableFuture.extract ⟨.Pending fut⟩).2 =
      (⟨.Spent⟩ : CollapsableFuture σ α) ∧
    ∀ q ∈ CollapsableFuture.pollResults p (⟨.Spent⟩ : CollapsableFuture σ α) cxs,
      q = .Ready (.error .mk) := by
  refine ⟨rfl, rfl, ?_⟩
  induction cxs with
  | nil => intro q hq; simp [CollapsableFuture.pollResults] at hq
  | cons cx rest ih =>
      intro q hq
      rw [CollapsableFuture.pollResults] at hq
      rw [collapsable_poll_spent_eq] at hq
      rcases List.mem_cons.mp hq with h | h
      · exact h
      · exact ih q h

/-- Claim C10, witness: a concrete pending wrapper over `Unit`, and the poll
after spending it. -/
theorem extract_pending_drops_then_spent_witness :
    (CollapsableFuture.extract
      (⟨.Pending ()⟩ : CollapsableFuture Unit Unit)).1 = .ok none ∧
    (CollapsableFuture.poll (fun (s : Unit) (_ : Nat) => ((.Pending : Poll Unit), s))
      ⟨.Spent⟩ 0).1 = .Ready (.error .mk) := by
  obtain ⟨h1, _, h3⟩ := extract_pending_drops_then_spent ()
    (fun (s : Unit) (_ : Nat) => ((.Pending : Poll Unit), s)) [0]
  refine ⟨h1, h3 _ ?_⟩
  simp [CollapsableFuture.pollResults]

/-- Claim C2, counterexample: a `Join` of two zero-work `FakeWorker`s returns
`Ready` with the output pair on the first poll, but the next poll — while
still `Ready` — returns the `InnerFutureSpentError` failure value instead of
the identical output. -/
theorem join_second_poll_output_differs_cx :
    Join.poll FakeWorker.poll FakeWorker.poll
        (Join.new ⟨0⟩ ⟨0⟩ : Join FakeWorker String FakeWorker String) 0 =
      .value (.Ready (.ok ("All done!", "All done!")), ⟨⟨.Spent⟩, ⟨.Spent⟩⟩) ∧
    Join.poll FakeWorker.poll FakeWorker.poll ⟨⟨.Spent⟩, ⟨.Spent⟩⟩ 1 =
      .value (.Ready (.error .mk), ⟨⟨.Spent⟩, ⟨.Spent⟩⟩) ∧
    (Except.ok ("All done!", "All done!") :
        Except InnerFutureSpentError (String × String)) ≠ .error .mk :=
  ⟨rfl, rfl, fun h => nomatch h⟩

/-- Claim C2 (amended): once `poll` has returned Ready, every subsequent poll
also returns Ready (readiness is monotonic) — with the identical output for
the leaf tasks (`FakeWorker`, `ThreadTimer`, `ThreadedFakeWorker`) and for a
collapsible wrapper under further polls; a `Join`, however, answers every
poll after its first Ready with the `InnerFutureSpentError` failure value
rather than the original pair (its wrappers were spent by the extraction). -/
theorem once_ready_always_ready :
    (∀ (fw fw2 : FakeWorker) (s : String) (cx : Nat),
      fw.poll cx = (.Ready s, fw2) →
      ∀ (cxs : List Nat), ∀ q ∈ fw2.pollResults cxs, q = .Ready s) ∧
    (∀ (t : ThreadTimer) (w : Nat) (raced : Bool),
      (t.poll w raced).result = .Ready () →
      ∀ (ins : List (Nat × Bool)),
        ∀ q ∈ (t.poll w raced).state.pollResults ins, q = .Ready ()) ∧
    (∀ (f : ThreadedFakeWorker) (w : Nat) (raced : Bool),
      (f.poll w raced).result = .Ready () →
      ∀ (ins : List (Nat × Bool)),
        ∀ q ∈ (f.poll w raced).state.pollResults ins, q = .Ready ()) ∧
    (∀ (σ α : Type) (p : σ → Nat → Poll α × σ)
      (c c2 : CollapsableFuture σ α) (e : Except InnerFutureSpentError Unit)
      (cx : Nat), CollapsableFuture.poll p c cx = (.Ready e, c2) →
      ∀ (cxs : List Nat),
        ∀ q ∈ CollapsableFuture.pollResults p c2 cxs, q = .Ready e) ∧
    (∀ (σ1 α1 σ2 α2 : Type) (p1 : σ1 → Nat → Poll α1 × σ1)
      (p2 : σ2 → Nat → Poll α2 × σ2) (j j2 : Join σ1 α1 σ2 α2) (cx : Nat)
      (v : Except InnerFutureSpentError (α1 × α2)),
      Join.poll p1 p2 j cx = .value (.Ready v, j2) →
      ∀ cx2, Join.poll p1 p2 j2 cx2 = .value (.Ready (.error .mk), j2)) := by
  refine ⟨?_, ?_, ?_, ?_, ?_⟩
  · intro fw fw2 s cx h cxs q hq
    obtain ⟨n⟩ := fw
    cases n with
    | zero =>
        have h2 : (Poll.Ready "All done!", (⟨0⟩ : FakeWorker)) = (.Ready s, fw2) := h
        injection h2 with ha hb
        injection ha with ha
        subst ha
        subst hb
        exact fake_worker_done_pollResults ⟨0⟩ rfl cxs q hq
    | succ m => exact absurd (congrArg Prod.fst h) (by simp [FakeWorker.poll])
  · intro t w raced h ins q hq
    exact timer_complete_pollResults _ (timer_ready_complete t w raced h) ins q hq
  · intro f w raced h ins q hq
    obtain ⟨h1, h2⟩ := worker_ready_finished f w raced h
    exact worker_complete_pollResults _ h1 h2 ins q hq
  · intro σ α p c c2 e cx h cxs q hq
    exact collapsable_ready_pollResults p c c2 e cx h cxs q hq
  · intro σ1 α1 σ2 α2 p1 p2 j j2 cx v h cx2
    exact join_poll_ready_fixed p1 p2 j j2 cx v h cx2

/-- Claim C2, witness: a finished `FakeWorker` stays Ready with the same
output; a `Join` that reported Ready answers later polls with the spent
error. -/
theorem once_ready_always_ready_witness :
    (FakeWorker.poll ⟨0⟩ 1).1 = .Ready "All done!" ∧
    Join.poll FakeWorker.poll FakeWorker.poll ⟨⟨.Spent⟩, ⟨.Spent⟩⟩ 3 =
      .value (.Ready (.error .mk), ⟨⟨.Spent⟩, ⟨.Spent⟩⟩) := by
  obtain ⟨ha, _, _, _, hd⟩ := once_ready_always_ready
  constructor
  · exact ha ⟨0⟩ ⟨0⟩ "All done!" 0 rfl [1] _ (by simp [FakeWorker.pollResults])
  · exact hd FakeWorker String FakeWorker String FakeWorker.poll FakeWorker.poll
      ⟨⟨.Ready "x"⟩, ⟨.Ready "y"⟩⟩ ⟨⟨.Spent⟩, ⟨.Spent⟩⟩ 0 (.ok ("x", "y")) rfl 3

/-- Claim C3: on every poll, `Join` polls both wrapped children (both child
states are advanced by their own polls even when the first is still Pending);
it returns Ready exactly when both children's polls were observed Ready; and
its successful output is the pair (first argument's output, second argument's
output) in positional order. -/
theorem join_polls_both_and_pairs (σ1 α1 σ2 α2 : Type)
    (p1 : σ1 → Nat → Poll α1 × σ1) (p2 : σ2 → Nat → Poll α2 × σ2)
    (j : Join σ1 α1 σ2 α2) (cx : Nat) :
    (((CollapsableFuture.poll p1 j.fst cx).1 = .Pending ∨
        (CollapsableFuture.poll p2 j.snd cx).1 = .Pending) →
      Join.poll p1 p2 j cx =
        .value (.Pending, ⟨(CollapsableFuture.poll p1 j.fst cx).2,
          (CollapsableFuture.poll p2 j.snd cx).2⟩)) ∧
    (∀ v j2, Join.poll p1 p2 j cx = .value (.Ready v, j2) →
      (∃ e1, (CollapsableFuture.poll p1 j.fst cx).1 = .Ready e1) ∧
      (∃ e2, (CollapsableFuture.poll p2 j.snd cx).1 = .Ready e2)) ∧
    (∀ e1 e2, (CollapsableFuture.poll p1 j.fst cx).1 = .Ready e1 →
      (CollapsableFuture.poll p2 j.snd cx).1 = .Ready e2 →
      ∃ v j2, Join.poll p1 p2 j cx = .value (.Ready v, j2)) ∧
    (∀ a b, (CollapsableFuture.poll p1 j.fst cx).1 = .Ready (.ok ()) →
      (CollapsableFuture.poll p2 j.snd cx).1 = .Ready (.ok ()) →
      (CollapsableFuture.poll p1 j.fst cx).2 = ⟨.Ready a⟩ →
      (CollapsableFuture.poll p2 j.snd cx).2 = ⟨.Ready b⟩ →
      Join.poll p1 p2 j cx =
        .value (.Ready (.ok (a, b)), ⟨⟨.Spent⟩, ⟨.Spent⟩⟩)) := by
  refine ⟨join_poll_pending_eq p1 p2 j cx, ?_, ?_, ?_⟩
  · intro v j2 h
    rcases h1 : (CollapsableFuture.poll p1 j.fst cx).1 with e1 | _
    · rcases h2 : (CollapsableFuture.poll p2 j.snd cx).1 with e2 | _
      · exact ⟨⟨e1, rfl⟩, e2, rfl⟩
      · rw [join_poll_pending_eq p1 p2 j cx (Or.inr h2)] at h
        exact absurd h (by simp)
    · rw [join_poll_pending_eq p1 p2 j cx (Or.inl h1)] at h
      exact absurd h (by simp)
  · intro e1 e2 h1 h2
    rcases he : (isErr e1 || isErr e2) with _ | _
    · have he1 : e1 = .ok () := by
        cases e1 with
        | error x => simp [isErr] at he
        | ok u => rfl
      have he2 : e2 = .ok () := by
        cases e2 with
        | error x => simp [isErr] at he
        | ok u => rfl
      have hpair1 : CollapsableFuture.poll p1 j.fst cx =
          (.Ready e1, (CollapsableFuture.poll p1 j.fst cx).2) := by rw [← h1]
      have hpair2 : CollapsableFuture.poll p2 j.snd cx =
          (.Ready e2, (CollapsableFuture.poll p2 j.snd cx).2) := by rw [← h2]
      rcases collapsable_poll_ready_cases p1 j.fst _ e1 cx hpair1 with
        ⟨_, a, hc1⟩ | ⟨hee, _, _⟩
      · rcases collapsable_poll_ready_cases p2 j.snd _ e2 cx hpair2 with
          ⟨_, b, hc2⟩ | ⟨hee, _, _⟩
        · exact ⟨.ok (a, b), ⟨⟨.Spent⟩, ⟨.Spent⟩⟩,
            join_poll_ok_eq p1 p2 j cx a b (he1 ▸ h1) (he2 ▸ h2) hc1 hc2⟩
        · rw [he2] at hee
          exact absurd hee (by simp)
      · rw [he1] at hee
        exact absurd hee (by simp)
    · exact ⟨.error .mk, _, join_poll_err_eq p1 p2 j cx e1 e2 h1 h2 he⟩
  · intro a b h1 h2 ha hb
    exact join_poll_ok_eq p1 p2 j cx a b h1 h2 ha hb

/-- Claim C3, witness: a join over `FakeWorker`s where the first child is
still Pending (both children advanced), and one where both are cached Ready
(positional pair extracted). -/
theorem join_polls_both_and_pairs_witness :
    Join.poll FakeWorker.poll FakeWorker.poll
        (Join.new ⟨1⟩ ⟨0⟩ : Join FakeWorker String FakeWorker String) 0 =
      .value (.Pending, ⟨⟨.Pending ⟨0⟩⟩, ⟨.Ready "All done!"⟩⟩) ∧
    Join.poll FakeWorker.poll FakeWorker.poll
        ⟨⟨.Ready "x"⟩, ⟨.Ready "y"⟩⟩ 0 =
      .value (.Ready (.ok ("x", "y")), ⟨⟨.Spent⟩, ⟨.Spent⟩⟩) := by
  constructor
  · exact (join_polls_both_and_pairs FakeWorker String FakeWorker String
      FakeWorker.poll FakeWorker.poll (Join.new ⟨1⟩ ⟨0⟩) 0).1 (Or.inl rfl)
  · exact (join_polls_both_and_pairs FakeWorker String FakeWorker String
      FakeWorker.poll FakeWorker.poll ⟨⟨.Ready "x"⟩, ⟨.Ready "y"⟩⟩ 0).2.2.2
      "x" "y" rfl rfl rfl rfl

/-- Claim C8: if the task's poll sequence (driven with one fixed waker, as
`block_thread_on` does) first answers Ready at some step `n`, then the driver
loop with any fuel above `n` terminates with exactly that output; and
whenever the driver loop returns an output, some poll within the bound was
observed to answer Ready with it — it never returns before then. -/
theorem block_thread_on_correct (σ α : Type) (p : σ → Nat → Poll α × σ)
    (w : Nat) (s : σ) :
    (∀ (n : Nat) (o : α),
      (∀ k, k < n → (p (pollIter p w s k) w).1 = .Pending) →
      (p (pollIter p w s n) w).1 = .Ready o →
      ∀ m, n < m → block_thread_on p w m s = some o) ∧
    (∀ (fuel : Nat) (o : α), block_thread_on p w fuel s = some o →
      ∃ k, k < fuel ∧ (p (pollIter p w s k) w).1 = .Ready o) :=
  ⟨fun n o hp hr m hm => block_thread_on_reaches p w n s o hp hr m hm,
   fun fuel o h => block_thread_on_sound p w fuel s o h⟩

/-- Claim C8, witness: driving a `FakeWorker` with three units of work — two
Pending polls, Ready on the third, and the driver returns its output. -/
theorem block_thread_on_correct_witness :
    block_thread_on FakeWorker.poll 0 3 ⟨2⟩ = some "All done!" :=
  (block_thread_on_correct FakeWorker String FakeWorker.poll 0 ⟨2⟩).1 2
    "All done!" (by decide) (by decide) 3 (by omega)

/-- Claim C9: the thread-backed waker never loses a wake.  If the worker
invokes the notification handle (`ThreadWaker::wake`, i.e. `unpark`) while
the driver is not yet parked, the wake is remembered as a stored token and
the driver's next `park` returns immediately; if the driver is already
parked, the wake unparks it.  Both interleavings of notify and park are
covered, so the driver never blocks indefinitely after a notify. -/
theorem wake_before_park_no_block (tw : ThreadWaker)
    (threads : Nat → ParkState) :
    ((threads tw.thread).parked = false →
      (ThreadWaker.wake tw threads tw.thread).token = true ∧
      (park (ThreadWaker.wake tw threads tw.thread)).1 = true) ∧
    ((threads tw.thread).parked = true →
      (ThreadWaker.wake tw threads tw.thread).parked = false) := by
  constructor <;> intro h <;> simp [ThreadWaker.wake, unpark, park, h]

/-- Claim C9, witness: a running (unparked, untokened) driver thread that is
notified and then parks returns from `park` immediately. -/
theorem wake_before_park_no_block_witness :
    (park (ThreadWaker.wake ⟨0⟩ (fun _ => ⟨false, false⟩) 0)).1 = true :=
  ((wake_before_park_no_block ⟨0⟩ (fun _ => ⟨false, false⟩)).1 rfl).2

end AsyncRust
